import Mathlib

/-!
Verification of the solr-subquery crate: a shallow embedding of the query
merging algebra (`src/solr_query/mod.rs`), the error type
(`src/errors/mod.rs`) and the chain folding iterator
(`src/query_chain/mod.rs`), together with theorems settling the
specification claims.

A parsed `url::Url` is modelled by the fields the crate reads: scheme,
host, port, path and the decoded query key–value pairs in order
(`host()` and `host_str()` are both modelled by the single `host` field).
URL parsing itself lives in the external `url` crate, so fallible
parsing is modelled by an `Except String Url` input: `.error e` is a
parse failure with message `e`, `.ok u` a successfully parsed URL.
Percent-encoding of the serialized query string is external to the crate
as well; the claims are settled at the level of the decoded pairs, which
is what the code manipulates.
-/

/-- Model of a parsed `url::Url`: scheme, host, port, path and the decoded
query pairs in order. -/
structure Url where
  scheme : String
  host : Option String
  port : Option Nat
  path : String
  query : List (String × String)
deriving DecidableEq

/-- `QueryParam::params` for `Url`: the values of all query pairs whose key
equals `param_name`, in order. -/
def Url.params (self : Url) (param_name : String) : List String :=
  (self.query.filter (fun kv => kv.1 == param_name)).map (fun kv => kv.2)

/-- `QueryParam::set_param` for `Url`: re-serializes the query pairs,
replacing the value of every pair whose key equals `param.1`. -/
def Url.set_param (self : Url) (param : String × String) : Url :=
  { self with
    query := self.query.map (fun kv => if kv.1 == param.1 then (kv.1, param.2) else kv) }

/-- A Solr boolean operator (`Operator` in `src/solr_query/mod.rs`). -/
inductive Operator
  | And
  | Or
  | Not
deriving DecidableEq

/-- The `Display` impl for `Operator`: renders the operator as uppercase text. -/
def Operator.toString : Operator → String
  | .And => "AND"
  | .Or => "OR"
  | .Not => "NOT"

/-- `SolrSubqueryError` from `src/errors/mod.rs`. -/
inductive SolrSubqueryError
  | InvalidUrl (msg : String)
  | MissingQQueryParameter
  | MultipleQQueryParameters
  | DifferentsHosts (self_host other_host : Option String)
  | DifferentsPorts (self_port other_port : Option Nat)
  | DifferentsPaths
deriving DecidableEq

/-- `SolrQuery`: a validated URL and its negation URL. In the source,
`negation` is a plain `Url` field, always populated. -/
structure SolrQuery where
  url : Url
  negation : Url
deriving DecidableEq

/-- `SolrQuery::new`: maps a parse failure to `InvalidUrl`, then matches on
the `q` parameters of the parsed URL: zero is `MissingQQueryParameter`,
more than one is `MultipleQQueryParameters`, and exactly one yields a
query whose negation URL is the input URL with `q` rewritten to
`NOT (<q>)` (the `format!("{} ({})", Operator::Not, q)` line). -/
def SolrQuery.new (url : Except String Url) : Except SolrSubqueryError SolrQuery :=
  match url with
  | .error e => .error (.InvalidUrl e)
  | .ok url =>
    match url.params "q" with
    | [] => .error .MissingQQueryParameter
    | [q] =>
      .ok { url := url
            negation := url.set_param ("q", Operator.Not.toString ++ " (" ++ q ++ ")") }
    | _ => .error .MultipleQQueryParameters

/-- `SolrQuery::inverse`: swaps the stored `url` and `negation`. -/
def SolrQuery.inverse (self : SolrQuery) : SolrQuery :=
  { url := self.negation, negation := self.url }

/-- `SolrQuery::q_param`: the single `q` value of `url`, re-validating with
the same zero/one/many rule as construction. -/
def SolrQuery.q_param (self : SolrQuery) : Except SolrSubqueryError String :=
  match self.url.params "q" with
  | [] => .error .MissingQQueryParameter
  | [q] => .ok q
  | _ => .error .MultipleQQueryParameters

/-- `SubQuery::check_has_same_host`: hosts must agree, else
`DifferentsHosts` carrying both host values. -/
def SolrQuery.check_has_same_host (self other : SolrQuery) :
    Except SolrSubqueryError Unit :=
  if self.url.host = other.url.host then .ok ()
  else .error (.DifferentsHosts self.url.host other.url.host)

/-- `SubQuery::check_has_same_port`: ports must agree, else
`DifferentsPorts` carrying both port values. -/
def SolrQuery.check_has_same_port (self other : SolrQuery) :
    Except SolrSubqueryError Unit :=
  if self.url.port = other.url.port then .ok ()
  else .error (.DifferentsPorts self.url.port other.url.port)

/-- `SubQuery::check_has_same_path`: paths must agree, else `DifferentsPaths`. -/
def SolrQuery.check_has_same_path (self other : SolrQuery) :
    Except SolrSubqueryError Unit :=
  if self.url.path = other.url.path then .ok ()
  else .error .DifferentsPaths

/-- The `format!("({}) {} ({})", self_q, operator, other_q)` line of
`merge_queries`. -/
def combinedQ (self_q other_q : String) (operator : Operator) : String :=
  "(" ++ self_q ++ ") " ++ operator.toString ++ " (" ++ other_q ++ ")"

/-- The query-rebuild loop of `merge_queries`: clears the pairs of a clone
of the URL and re-appends every pair of the original, replacing the value
of each pair keyed `q` with `new_q_param`. -/
def Url.rewriteQ (self : Url) (new_q_param : String) : Url :=
  { self with
    query := self.query.map (fun kv => if kv.1 == "q" then ("q", new_q_param) else kv) }

/-- `SubQuery::merge_queries`: checks host, then port, then path, each
short-circuiting; extracts both single `q` values; rewrites `other`'s URL
with the combined `q`; wraps it through `SolrQuery::new` again. -/
def SolrQuery.merge_queries (self other : SolrQuery) (operator : Operator) :
    Except SolrSubqueryError SolrQuery :=
  match self.check_has_same_host other with
  | .error e => .error e
  | .ok _ =>
    match self.check_has_same_port other with
    | .error e => .error e
    | .ok _ =>
      match self.check_has_same_path other with
      | .error e => .error e
      | .ok _ =>
        match self.q_param with
        | .error e => .error e
        | .ok self_q =>
          match other.q_param with
          | .error e => .error e
          | .ok other_q =>
            SolrQuery.new (.ok (other.url.rewriteQ (combinedQ self_q other_q operator)))

/-- `SubQuery::inner_join`: the AND merge becomes the result's `url`, the
NOT merge becomes its `negation`. -/
def SolrQuery.inner_join (self other : SolrQuery) :
    Except SolrSubqueryError SolrQuery :=
  match self.merge_queries other .And with
  | .error e => .error e
  | .ok positive =>
    match self.merge_queries other .Not with
    | .error e => .error e
    | .ok negative => .ok { url := positive.url, negation := negative.url }

/-- `QueryChain`: a sequence of queries and a fold cursor. -/
structure QueryChain where
  queries : List SolrQuery
  iteration : Nat
deriving DecidableEq

/-- `QueryChain::new`: stores the queries verbatim, cursor at zero. -/
def QueryChain.new (queries : List SolrQuery) : QueryChain :=
  { queries := queries, iteration := 0 }

/-- `QueryChain::add_subquery`: validated construction, then push_back. -/
def QueryChain.add_subquery (self : QueryChain) (url : Except String Url) :
    Except SolrSubqueryError QueryChain :=
  match SolrQuery.new url with
  | .error e => .error e
  | .ok q => .ok { self with queries := self.queries ++ [q] }

/-- `Iterator::next` for `QueryChain`. At cursor 0 it returns the front
element without consuming it and bumps the cursor. Otherwise it pops the
two front elements; if both exist it joins them (the `.unwrap()` panic on
a failed join is modelled by the `.error` branch), pushes the joined query
back to the front, bumps the cursor and yields it; if fewer than two
existed the pops leave the sequence empty and it yields `none` with the
cursor unchanged. -/
def QueryChain.next (self : QueryChain) :
    Except SolrSubqueryError (Option SolrQuery × QueryChain) :=
  if self.iteration == 0 then
    .ok (self.queries.head?, { self with iteration := self.iteration + 1 })
  else
    match self.queries with
    | q1 :: q2 :: rest =>
      match q1.inner_join q2 with
      | .error e => .error e
      | .ok new_query =>
        .ok (some new_query,
             { queries := new_query :: rest, iteration := self.iteration + 1 })
    | _ => .ok (none, { queries := [], iteration := self.iteration })

/-- The chain state after `n` calls to `next` (propagating a join panic). -/
def QueryChain.stateAfter (self : QueryChain) : Nat → Except SolrSubqueryError QueryChain
  | 0 => .ok self
  | n + 1 =>
    match self.stateAfter n with
    | .error e => .error e
    | .ok c =>
      match c.next with
      | .error e => .error e
      | .ok r => .ok r.2

/-- The item yielded by the `(n+1)`-th call to `next`. -/
def QueryChain.output (self : QueryChain) (n : Nat) :
    Except SolrSubqueryError (Option SolrQuery) :=
  match self.stateAfter n with
  | .error e => .error e
  | .ok c =>
    match c.next with
    | .error e => .error e
    | .ok r => .ok r.1

/-- Left-associative fold of `inner_join` over a list, starting from `acc`:
the cumulative joins the chain produces. -/
def joinFold (acc : SolrQuery) : List SolrQuery → Except SolrSubqueryError SolrQuery
  | [] => .ok acc
  | b :: rest =>
    match acc.inner_join b with
    | .error e => .error e
    | .ok j => joinFold j rest

/-! ### Supporting lemmas -/

lemma rewrite_filter_map (l : List (String × String)) (v : String) :
    ((l.map (fun kv => if kv.1 == "q" then ("q", v) else kv)).filter
        (fun kv => kv.1 == "q")).map (fun kv => kv.2)
      = List.replicate ((l.filter (fun kv => kv.1 == "q")).length) v := by
  induction l with
  | nil => rfl
  | cons kv rest ih =>
    by_cases h : kv.1 = "q"
    · simpa [h, List.replicate_succ] using ih
    · simpa [h] using ih

lemma set_filter_map (l : List (String × String)) (name v : String) :
    ((l.map (fun kv => if kv.1 == name then (kv.1, v) else kv)).filter
        (fun kv => kv.1 == name)).map (fun kv => kv.2)
      = List.replicate ((l.filter (fun kv => kv.1 == name)).length) v := by
  induction l with
  | nil => rfl
  | cons kv rest ih =>
    by_cases h : kv.1 = name
    · simpa [h, List.replicate_succ] using ih
    · simpa [h] using ih

lemma Url.params_rewriteQ (u : Url) (v : String) :
    (u.rewriteQ v).params "q" = List.replicate (u.params "q").length v := by
  unfold Url.params Url.rewriteQ
  simpa using rewrite_filter_map u.query v

lemma Url.params_set_param (u : Url) (name v : String) :
    (u.set_param (name, v)).params name = List.replicate (u.params name).length v := by
  unfold Url.params Url.set_param
  simpa using set_filter_map u.query name v

lemma SolrQuery.new_ok_iff (u : Url) (sq : SolrQuery) :
    SolrQuery.new (.ok u) = .ok sq ↔
      ∃ q0, u.params "q" = [q0] ∧
        sq = ⟨u, u.set_param ("q", Operator.Not.toString ++ " (" ++ q0 ++ ")")⟩ := by
  unfold SolrQuery.new
  rcases h : u.params "q" with _ | ⟨q0, _ | ⟨q1, tl⟩⟩ <;> simp [h]
  exact eq_comm

/-- A successfully constructed query has exactly one `q` on both URLs. -/
lemma SolrQuery.new_ok_params (r : Except String Url) (sq : SolrQuery)
    (h : SolrQuery.new r = .ok sq) :
    (sq.url.params "q").length = 1 ∧ (sq.negation.params "q").length = 1 := by
  cases r with
  | error e => simp [SolrQuery.new] at h
  | ok u =>
    rcases (SolrQuery.new_ok_iff u sq).1 h with ⟨q0, hq, rfl⟩
    constructor
    · simp [hq]
    · simp [Url.params_set_param, hq]

lemma combinedQ_and (qa qb : String) :
    combinedQ qa qb .And = "(" ++ qa ++ ") AND (" ++ qb ++ ")" := by
  show "(" ++ qa ++ ") " ++ "AND" ++ " (" ++ qb ++ ")"
    = "(" ++ qa ++ ") AND (" ++ qb ++ ")"
  rw [String.append_assoc ("(" ++ qa) ") " "AND",
      String.append_assoc ("(" ++ qa) (") " ++ "AND") " (",
      show (") " ++ "AND" ++ " (") = ") AND (" from rfl]

lemma combinedQ_not (qa qb : String) :
    combinedQ qa qb .Not = "(" ++ qa ++ ") NOT (" ++ qb ++ ")" := by
  show "(" ++ qa ++ ") " ++ "NOT" ++ " (" ++ qb ++ ")"
    = "(" ++ qa ++ ") NOT (" ++ qb ++ ")"
  rw [String.append_assoc ("(" ++ qa) ") " "NOT",
      String.append_assoc ("(" ++ qa) (") " ++ "NOT") " (",
      show (") " ++ "NOT" ++ " (") = ") NOT (" from rfl]

lemma notWrap_flat (s : String) :
    Operator.Not.toString ++ " (" ++ s ++ ")" = "NOT (" ++ s ++ ")" := rfl

lemma merge_queries_ok (a b : SolrQuery) (op : Operator) (qa qb : String)
    (hqa : a.url.params "q" = [qa]) (hqb : b.url.params "q" = [qb])
    (hh : a.url.host = b.url.host) (hp : a.url.port = b.url.port)
    (hpa : a.url.path = b.url.path) :
    a.merge_queries b op =
      .ok ⟨b.url.rewriteQ (combinedQ qa qb op),
           (b.url.rewriteQ (combinedQ qa qb op)).set_param
             ("q", Operator.Not.toString ++ " (" ++ combinedQ qa qb op ++ ")")⟩ := by
  unfold SolrQuery.merge_queries SolrQuery.check_has_same_host
    SolrQuery.check_has_same_port SolrQuery.check_has_same_path SolrQuery.q_param
  simp only [hh, hp, hpa, hqa, hqb, if_pos rfl]
  exact (SolrQuery.new_ok_iff _ _).2
    ⟨combinedQ qa qb op, by simp [Url.params_rewriteQ, hqb], rfl⟩

lemma inner_join_ok (a b : SolrQuery) (qa qb : String)
    (hqa : a.url.params "q" = [qa]) (hqb : b.url.params "q" = [qb])
    (hh : a.url.host = b.url.host) (hp : a.url.port = b.url.port)
    (hpa : a.url.path = b.url.path) :
    a.inner_join b =
      .ok ⟨b.url.rewriteQ (combinedQ qa qb .And),
           b.url.rewriteQ (combinedQ qa qb .Not)⟩ := by
  unfold SolrQuery.inner_join
  rw [merge_queries_ok a b .And qa qb hqa hqb hh hp hpa,
      merge_queries_ok a b .Not qa qb hqa hqb hh hp hpa]

/-- The shape of a successful `merge_queries` result only (no endpoint
hypotheses): whatever made the merge succeed, its `url` is `other`'s URL
with `q` rewritten to the combination of the two single `q` values. -/
lemma merge_queries_ok_shape (a b : SolrQuery) (op : Operator) (m : SolrQuery)
    (qa qb : String)
    (hqa : a.url.params "q" = [qa]) (hqb : b.url.params "q" = [qb])
    (h : a.merge_queries b op = .ok m) :
    m.url = b.url.rewriteQ (combinedQ qa qb op) := by
  unfold SolrQuery.merge_queries SolrQuery.check_has_same_host
    SolrQuery.check_has_same_port SolrQuery.check_has_same_path
    SolrQuery.q_param at h
  by_cases hh : a.url.host = b.url.host
  · by_cases hp : a.url.port = b.url.port
    · by_cases hpa : a.url.path = b.url.path
      · simp only [hh, hp, hpa, hqa, hqb, if_pos rfl] at h
        rcases (SolrQuery.new_ok_iff _ _).1 h with ⟨q0, _, rfl⟩
        rfl
      · simp [hh, hp, hpa] at h
    · simp [hh, hp] at h
  · simp [hh] at h

/-- The shape of a successful `inner_join`. -/
lemma inner_join_ok_shape (a b j : SolrQuery) (qa qb : String)
    (hqa : a.url.params "q" = [qa]) (hqb : b.url.params "q" = [qb])
    (h : a.inner_join b = .ok j) :
    j = ⟨b.url.rewriteQ (combinedQ qa qb .And),
         b.url.rewriteQ (combinedQ qa qb .Not)⟩ := by
  unfold SolrQuery.inner_join at h
  rcases hAnd : a.merge_queries b .And with e | positive
  · rw [hAnd] at h; cases h
  · rcases hNot : a.merge_queries b .Not with e | negative
    · rw [hAnd, hNot] at h; cases h
    · rw [hAnd, hNot] at h
      cases h
      rw [merge_queries_ok_shape a b .And positive qa qb hqa hqb hAnd,
          merge_queries_ok_shape a b .Not negative qa qb hqa hqb hNot]

/-! ### Concrete fixtures (the URLs of the crate's own tests) -/

def exUrl1 : Url :=
  ⟨"http", some "localhost", some 8983, "/solr/collection1/select", [("q", "1:*")]⟩

def exUrl2 : Url :=
  ⟨"http", some "localhost", some 8983, "/solr/collection1/select", [("q", "2:*")]⟩

def exUrl3 : Url :=
  ⟨"http", some "localhost", some 8983, "/solr/collection1/select", [("q", "3:*")]⟩

/-- A second-operand URL carrying extra non-`q` parameters around `q`. -/
def exUrlExtra : Url :=
  ⟨"http", some "localhost", some 8983, "/solr/collection1/select",
   [("rows", "10"), ("q", "2:*"), ("fl", "id")]⟩

def exUrlHostA : Url :=
  ⟨"http", some "localhost1", some 8983, "/solr/collection1/select", [("q", "*:*")]⟩

def exUrlHostB : Url :=
  ⟨"http", some "localhost2", some 8983, "/solr/collection1/select", [("q", "*:*")]⟩

def exQ1 : SolrQuery :=
  ⟨exUrl1, ⟨"http", some "localhost", some 8983, "/solr/collection1/select",
            [("q", "NOT (1:*)")]⟩⟩

def exQ2 : SolrQuery :=
  ⟨exUrl2, ⟨"http", some "localhost", some 8983, "/solr/collection1/select",
            [("q", "NOT (2:*)")]⟩⟩

def exQ3 : SolrQuery :=
  ⟨exUrl3, ⟨"http", some "localhost", some 8983, "/solr/collection1/select",
            [("q", "NOT (3:*)")]⟩⟩

def exQExtra : SolrQuery :=
  ⟨exUrlExtra, ⟨"http", some "localhost", some 8983, "/solr/collection1/select",
                [("rows", "10"), ("q", "NOT (2:*)"), ("fl", "id")]⟩⟩

def exQHostA : SolrQuery :=
  ⟨exUrlHostA, ⟨"http", some "localhost1", some 8983, "/solr/collection1/select",
                [("q", "NOT (*:*)")]⟩⟩

def exQHostB : SolrQuery :=
  ⟨exUrlHostB, ⟨"http", some "localhost2", some 8983, "/solr/collection1/select",
                [("q", "NOT (*:*)")]⟩⟩

example : SolrQuery.new (.ok exUrl1) = .ok exQ1 := rfl
example : SolrQuery.new (.ok exUrlExtra) = .ok exQExtra := rfl
example : SolrQuery.new (.ok exUrlHostA) = .ok exQHostA := rfl

/-! ### Claim theorems -/

/-- C1: for two queries sharing host, port and path, each with exactly one
`q` parameter, the join succeeds; the `q` value of the resulting URL is the
literal text `(<self_q>) AND (<other_q>)` and the `q` value of its negation
URL is `(<self_q>) NOT (<other_q>)`. -/
theorem claim_join_content :
    ∀ (a b : SolrQuery) (qa qb : String),
      a.url.host = b.url.host → a.url.port = b.url.port →
      a.url.path = b.url.path →
      a.url.params "q" = [qa] → b.url.params "q" = [qb] →
      (a.inner_join b).map
          (fun j => (j.url.params "q", j.negation.params "q")) =
        .ok (["(" ++ qa ++ ") AND (" ++ qb ++ ")"],
             ["(" ++ qa ++ ") NOT (" ++ qb ++ ")"]) := by
  intro a b qa qb hh hp hpa hqa hqb
  rw [inner_join_ok a b qa qb hqa hqb hh hp hpa]
  simp [Except.map, Url.params_rewriteQ, hqb, combinedQ_and, combinedQ_not]

/-- Witness for C1 at the crate's own test inputs: `q=1:*` joined with
`q=2:*` yields `q=(1:*) AND (2:*)` and inverse `q=(1:*) NOT (2:*)`. -/
theorem claim_join_content_witness :
    exQ1.url.host = exQ2.url.host ∧ exQ1.url.port = exQ2.url.port ∧
    exQ1.url.path = exQ2.url.path ∧
    exQ1.url.params "q" = ["1:*"] ∧ exQ2.url.params "q" = ["2:*"] ∧
    (exQ1.inner_join exQ2).map
        (fun j => (j.url.params "q", j.negation.params "q")) =
      .ok (["(1:*) AND (2:*)"], ["(1:*) NOT (2:*)"]) :=
  ⟨rfl, rfl, rfl, rfl, rfl,
   claim_join_content exQ1 exQ2 "1:*" "2:*" rfl rfl rfl rfl rfl⟩

/-- C3: construction maps a parse failure to `InvalidUrl` with the parser's
message; on a parsed URL it fails with `MissingQQueryParameter` iff there
are zero `q` keys, with `MultipleQQueryParameters` iff there are two or
more, and succeeds iff there is exactly one. -/
theorem claim_construct_validity :
    (∀ e : String, SolrQuery.new (.error e) = .error (.InvalidUrl e)) ∧
    (∀ u : Url,
      (SolrQuery.new (.ok u) = .error .MissingQQueryParameter ↔
        (u.params "q").length = 0) ∧
      (SolrQuery.new (.ok u) = .error .MultipleQQueryParameters ↔
        2 ≤ (u.params "q").length) ∧
      ((∃ sq, SolrQuery.new (.ok u) = .ok sq) ↔ (u.params "q").length = 1)) := by
  refine ⟨fun e => rfl, fun u => ?_⟩
  rcases h : u.params "q" with _ | ⟨q0, _ | ⟨q1, tl⟩⟩ <;>
    simp [SolrQuery.new, h]

/-- C4: the merge checks host, then port, then path, first mismatch
winning, with the errors carrying both values; a `q`-parameter
re-validation error can only arise once all three endpoint checks passed. -/
theorem claim_join_guard_order :
    ∀ (a b : SolrQuery) (op : Operator),
      (a.url.host ≠ b.url.host →
        a.merge_queries b op = .error (.DifferentsHosts a.url.host b.url.host)) ∧
      (a.url.host = b.url.host → a.url.port ≠ b.url.port →
        a.merge_queries b op = .error (.DifferentsPorts a.url.port b.url.port)) ∧
      (a.url.host = b.url.host → a.url.port = b.url.port →
        a.url.path ≠ b.url.path →
        a.merge_queries b op = .error .DifferentsPaths) ∧
      (∀ e, a.merge_queries b op = .error e →
        e = .MissingQQueryParameter ∨ e = .MultipleQQueryParameters →
        a.url.host = b.url.host ∧ a.url.port = b.url.port ∧
        a.url.path = b.url.path) := by
  intro a b op
  refine ⟨fun hh => ?_, fun hh hp => ?_, fun hh hp hpa => ?_, fun e he hqe => ?_⟩
  · simp [SolrQuery.merge_queries, SolrQuery.check_has_same_host, hh]
  · simp [SolrQuery.merge_queries, SolrQuery.check_has_same_host,
      SolrQuery.check_has_same_port, hh, hp]
  · simp [SolrQuery.merge_queries, SolrQuery.check_has_same_host,
      SolrQuery.check_has_same_port, SolrQuery.check_has_same_path,
      hh, hp, hpa]
  · by_cases hh : a.url.host = b.url.host
    · by_cases hp : a.url.port = b.url.port
      · by_cases hpa : a.url.path = b.url.path
        · exact ⟨hh, hp, hpa⟩
        · simp [SolrQuery.merge_queries, SolrQuery.check_has_same_host,
            SolrQuery.check_has_same_port, SolrQuery.check_has_same_path,
            hh, hp, hpa] at he
          rcases hqe with rfl | rfl <;> simp at he
      · simp [SolrQuery.merge_queries, SolrQuery.check_has_same_host,
          SolrQuery.check_has_same_port, hh, hp] at he
        rcases hqe with rfl | rfl <;> simp at he
    · simp [SolrQuery.merge_queries, SolrQuery.check_has_same_host, hh] at he
      rcases hqe with rfl | rfl <;> simp at he

/-- Witness for C4 at the crate's own different-hosts test inputs. -/
theorem claim_join_guard_order_witness :
    exQHostA.url.host ≠ exQHostB.url.host ∧
    exQHostA.merge_queries exQHostB .And =
      .error (.DifferentsHosts (some "localhost1") (some "localhost2")) :=
  ⟨by decide, (claim_join_guard_order exQHostA exQHostB .And).1 (by decide)⟩

/-- C10: `inverse` merely swaps the stored `url` and `negation`, so it is an
involution; its result always carries a negation (the original `url`), and
being a total function it never fails. -/
theorem claim_inverse_involution :
    ∀ q : SolrQuery,
      q.inverse.url = q.negation ∧ q.inverse.negation = q.url ∧
      q.inverse.inverse = q :=
  fun _ => ⟨rfl, rfl, rfl⟩

/-- The result of the crate's own test join against a URL with extra
parameters: `rows` and `fl` survive verbatim around the rewritten `q`. -/
def exJoinExtra : SolrQuery :=
  ⟨⟨"http", some "localhost", some 8983, "/solr/collection1/select",
    [("rows", "10"), ("q", "(1:*) AND (2:*)"), ("fl", "id")]⟩,
   ⟨"http", some "localhost", some 8983, "/solr/collection1/select",
    [("rows", "10"), ("q", "(1:*) NOT (2:*)"), ("fl", "id")]⟩⟩

/-- C6 counterexample: a freshly constructed, never-joined query already
carries a populated negation URL — its `q` is `NOT (1:*)` — and `inverse`
returns a usable query built from it instead of reporting absence. -/
theorem claim_fresh_negation_cex :
    SolrQuery.new (.ok exUrl1) = .ok exQ1 ∧
    exQ1.negation.params "q" = ["NOT (1:*)"] ∧
    exQ1.inverse.url.params "q" = ["NOT (1:*)"] :=
  ⟨rfl, rfl, rfl⟩

/-- C6 amended: a query freshly returned by successful construction carries
a negation equal to its URL with the `q` value replaced by `NOT (<q>)`, and
`inverse` on it returns that usable negated query (never an absence). -/
theorem claim_fresh_negation_amended :
    ∀ (u : Url) (qv : String) (sq : SolrQuery),
      u.params "q" = [qv] →
      SolrQuery.new (.ok u) = .ok sq →
      sq.negation = u.set_param ("q", "NOT (" ++ qv ++ ")") ∧
      sq.inverse = ⟨sq.negation, sq.url⟩ ∧
      sq.negation.params "q" = ["NOT (" ++ qv ++ ")"] := by
  intro u qv sq hq hnew
  rcases (SolrQuery.new_ok_iff u sq).1 hnew with ⟨q0, hq0, rfl⟩
  rw [hq] at hq0
  obtain rfl : q0 = qv := by simpa using hq0.symm
  refine ⟨rfl, rfl, ?_⟩
  simp [Url.params_set_param, hq, notWrap_flat]

/-- Witness for C6's amended claim at a concrete construction. -/
theorem claim_fresh_negation_amended_witness :
    exUrl1.params "q" = ["1:*"] ∧ SolrQuery.new (.ok exUrl1) = .ok exQ1 ∧
    (exQ1.negation = exUrl1.set_param ("q", "NOT (1:*)") ∧
     exQ1.inverse = ⟨exQ1.negation, exQ1.url⟩ ∧
     exQ1.negation.params "q" = ["NOT (1:*)"]) :=
  ⟨rfl, rfl, claim_fresh_negation_amended exUrl1 "1:*" exQ1 rfl rfl⟩

/-- C9: a successful join's URL is the second operand's URL with scheme,
host, port and path unchanged and the query pairs mapped in place: every
non-`q` pair copied verbatim in its original position, `q` replaced by the
combined value. -/
theorem claim_param_preservation :
    ∀ (a b : SolrQuery) (qa qb : String),
      a.url.params "q" = [qa] → b.url.params "q" = [qb] →
      ∀ j, a.inner_join b = .ok j →
        j.url.scheme = b.url.scheme ∧ j.url.host = b.url.host ∧
        j.url.port = b.url.port ∧ j.url.path = b.url.path ∧
        j.url.query = b.url.query.map
          (fun kv => if kv.1 == "q"
            then ("q", "(" ++ qa ++ ") AND (" ++ qb ++ ")") else kv) := by
  intro a b qa qb hqa hqb j hj
  rw [inner_join_ok_shape a b j qa qb hqa hqb hj]
  refine ⟨rfl, rfl, rfl, rfl, ?_⟩
  show (b.url.rewriteQ (combinedQ qa qb .And)).query = _
  rw [combinedQ_and]
  rfl

/-- Witness for C9: joining against a URL with `rows` and `fl` around `q`
keeps both, in order, with `q` rewritten in place. -/
theorem claim_param_preservation_witness :
    exQ1.url.params "q" = ["1:*"] ∧ exQExtra.url.params "q" = ["2:*"] ∧
    exQ1.inner_join exQExtra = .ok exJoinExtra ∧
    exJoinExtra.url.query = exUrlExtra.query.map
      (fun kv => if kv.1 == "q" then ("q", "(1:*) AND (2:*)") else kv) :=
  ⟨rfl, rfl, rfl,
   (claim_param_preservation exQ1 exQExtra "1:*" "2:*" rfl rfl
     exJoinExtra rfl).2.2.2.2⟩

/-- Queries reachable through the public interface: produced by validated
construction, by a successful join of reachable queries, or by `inverse` of
a reachable query. -/
inductive Reachable : SolrQuery → Prop
  | construct (u : Url) (q : SolrQuery) :
      SolrQuery.new (.ok u) = .ok q → Reachable q
  | join (a b q : SolrQuery) :
      Reachable a → Reachable b → a.inner_join b = .ok q → Reachable q
  | inv (a : SolrQuery) : Reachable a → Reachable a.inverse

lemma merge_queries_ok_params (a b : SolrQuery) (op : Operator)
    (m : SolrQuery) (h : a.merge_queries b op = .ok m) :
    (m.url.params "q").length = 1 ∧ (m.negation.params "q").length = 1 := by
  unfold SolrQuery.merge_queries at h
  cases hc1 : a.check_has_same_host b with
  | error e => rw [hc1] at h; cases h
  | ok u1 =>
    rw [hc1] at h
    cases hc2 : a.check_has_same_port b with
    | error e => rw [hc2] at h; cases h
    | ok u2 =>
      rw [hc2] at h
      cases hc3 : a.check_has_same_path b with
      | error e => rw [hc3] at h; cases h
      | ok u3 =>
        rw [hc3] at h
        cases hq1 : a.q_param with
        | error e => rw [hq1] at h; cases h
        | ok qa =>
          rw [hq1] at h
          cases hq2 : b.q_param with
          | error e => rw [hq2] at h; cases h
          | ok qb =>
            rw [hq2] at h
            exact SolrQuery.new_ok_params _ _ h

lemma inner_join_ok_params (a b j : SolrQuery) (h : a.inner_join b = .ok j) :
    (j.url.params "q").length = 1 ∧ (j.negation.params "q").length = 1 := by
  unfold SolrQuery.inner_join at h
  cases hA : a.merge_queries b .And with
  | error e => rw [hA] at h; cases h
  | ok positive =>
    rw [hA] at h
    cases hN : a.merge_queries b .Not with
    | error e => rw [hN] at h; cases h
    | ok negative =>
      rw [hN] at h
      cases h
      exact ⟨(merge_queries_ok_params a b .And positive hA).1,
             (merge_queries_ok_params a b .Not negative hN).1⟩

lemma reachable_one_q (q : SolrQuery) (h : Reachable q) :
    (q.url.params "q").length = 1 ∧ (q.negation.params "q").length = 1 := by
  induction h with
  | construct u q hn => exact SolrQuery.new_ok_params _ _ hn
  | join a b q ha hb hj iha ihb => exact inner_join_ok_params a b q hj
  | inv a ha iha => exact ⟨iha.2, iha.1⟩

lemma merge_queries_error_endpoint (a b : SolrQuery) (op : Operator)
    (e : SolrSubqueryError)
    (ha : (a.url.params "q").length = 1) (hb : (b.url.params "q").length = 1)
    (h : a.merge_queries b op = .error e) :
    e ≠ .MissingQQueryParameter ∧ e ≠ .MultipleQQueryParameters ∧
    ∀ s, e ≠ .InvalidUrl s := by
  obtain ⟨qa, hqa⟩ := List.length_eq_one.1 ha
  obtain ⟨qb, hqb⟩ := List.length_eq_one.1 hb
  by_cases hh : a.url.host = b.url.host
  · by_cases hp : a.url.port = b.url.port
    · by_cases hpa : a.url.path = b.url.path
      · rw [merge_queries_ok a b op qa qb hqa hqb hh hp hpa] at h; cases h
      · simp [SolrQuery.merge_queries, SolrQuery.check_has_same_host,
          SolrQuery.check_has_same_port, SolrQuery.check_has_same_path,
          hh, hp, hpa] at h
        subst h
        exact ⟨by simp, by simp, fun s => by simp⟩
    · simp [SolrQuery.merge_queries, SolrQuery.check_has_same_host,
        SolrQuery.check_has_same_port, hh, hp] at h
      subst h
      exact ⟨by simp, by simp, fun s => by simp⟩
  · simp [SolrQuery.merge_queries, SolrQuery.check_has_same_host, hh] at h
    subst h
    exact ⟨by simp, by simp, fun s => by simp⟩

/-- C5: every query reachable through the public interface carries exactly
one `q` parameter on both its URL and its negation URL; consequently a
merge between reachable queries can only fail on the endpoint checks — the
`q` re-validation error branches are unreachable. -/
theorem claim_reachable_one_q :
    (∀ q, Reachable q →
      (q.url.params "q").length = 1 ∧ (q.negation.params "q").length = 1) ∧
    (∀ a b op e, Reachable a → Reachable b →
      a.merge_queries b op = .error e →
      e ≠ .MissingQQueryParameter ∧ e ≠ .MultipleQQueryParameters ∧
      ∀ s, e ≠ .InvalidUrl s) :=
  ⟨reachable_one_q,
   fun a b op e ha hb h =>
     merge_queries_error_endpoint a b op e (reachable_one_q a ha).1
       (reachable_one_q b hb).1 h⟩

/-- Witness for C5 at a concretely constructed query. -/
theorem claim_reachable_one_q_witness :
    (exQ1.url.params "q").length = 1 ∧
    (exQ1.negation.params "q").length = 1 :=
  claim_reachable_one_q.1 exQ1 (Reachable.construct exUrl1 exQ1 rfl)

/-- Same endpoint (host, port, path) plus the construction-time guarantee
of exactly one `q` parameter: the precondition under which joins succeed. -/
def Joinable (h : Option String) (p : Option Nat) (pa : String)
    (q : SolrQuery) : Prop :=
  q.url.host = h ∧ q.url.port = p ∧ q.url.path = pa ∧
  (q.url.params "q").length = 1

lemma inner_join_ok_of_joinable {h : Option String} {p : Option Nat}
    {pa : String} (a b : SolrQuery)
    (ha : Joinable h p pa a) (hb : Joinable h p pa b) :
    ∃ j, a.inner_join b = .ok j ∧ Joinable h p pa j := by
  obtain ⟨qa, hqa⟩ := List.length_eq_one.1 ha.2.2.2
  obtain ⟨qb, hqb⟩ := List.length_eq_one.1 hb.2.2.2
  refine ⟨_, inner_join_ok a b qa qb hqa hqb (ha.1.trans hb.1.symm)
    (ha.2.1.trans hb.2.1.symm) (ha.2.2.1.trans hb.2.2.1.symm), ?_⟩
  refine ⟨hb.1, hb.2.1, hb.2.2.1, ?_⟩
  simp [Url.params_rewriteQ, hqb]

lemma joinFold_ok (h : Option String) (p : Option Nat) (pa : String) :
    ∀ (l : List SolrQuery) (a : SolrQuery), Joinable h p pa a →
      (∀ q ∈ l, Joinable h p pa q) →
      ∃ j, joinFold a l = .ok j ∧ Joinable h p pa j := by
  intro l
  induction l with
  | nil => intro a ha _; exact ⟨a, rfl, ha⟩
  | cons b rest ih =>
    intro a ha hl
    obtain ⟨j, hj, hJ⟩ := inner_join_ok_of_joinable a b ha (hl b (by simp))
    obtain ⟨j2, hj2, hJ2⟩ := ih j hJ (fun q hq => hl q (by simp [hq]))
    exact ⟨j2, by simp [joinFold, hj, hj2], hJ2⟩

lemma joinFold_append (l : List SolrQuery) :
    ∀ (a b : SolrQuery),
      joinFold a (l ++ [b]) =
        match joinFold a l with
        | .error e => .error e
        | .ok j => j.inner_join b := by
  induction l with
  | nil =>
    intro a b
    show joinFold a [b] = _
    cases h : a.inner_join b <;> simp [joinFold, h]
  | cons c rest ih =>
    intro a b
    show joinFold a (c :: (rest ++ [b])) = _
    cases h : a.inner_join c <;> simp [joinFold, h, ih]

lemma chain_state_fold (h : Option String) (p : Option Nat) (pa : String)
    (q0 : SolrQuery) (rest : List SolrQuery)
    (h0 : Joinable h p pa q0) (hrest : ∀ q ∈ rest, Joinable h p pa q) :
    ∀ k, k ≤ rest.length →
      ∃ j, joinFold q0 (rest.take k) = .ok j ∧
        (QueryChain.new (q0 :: rest)).stateAfter (k + 1) =
          .ok ⟨j :: rest.drop k, k + 1⟩ ∧
        (QueryChain.new (q0 :: rest)).output k = .ok (some j) := by
  intro k
  induction k with
  | zero =>
    intro _
    refine ⟨q0, rfl, ?_, ?_⟩
    · simp [QueryChain.stateAfter, QueryChain.next, QueryChain.new]
    · simp [QueryChain.output, QueryChain.stateAfter, QueryChain.next,
        QueryChain.new]
  | succ k ih =>
    intro hk
    obtain ⟨j, hfold, hstate, hout⟩ := ih (Nat.le_of_succ_le hk)
    have hk' : k < rest.length := hk
    have hJj : Joinable h p pa j := by
      obtain ⟨j', hf', hJ'⟩ :=
        joinFold_ok h p pa (rest.take k) q0 h0
          (fun q hq => hrest q (List.mem_of_mem_take hq))
      rw [hfold] at hf'
      cases hf'
      exact hJ'
    obtain ⟨j2, hjoin, hJ2⟩ :=
      inner_join_ok_of_joinable j rest[k] hJj (hrest _ (List.getElem_mem hk'))
    have hdrop : rest.drop k = rest[k] :: rest.drop (k + 1) :=
      List.drop_eq_getElem_cons hk'
    have htake : rest.take (k + 1) = rest.take k ++ [rest[k]] := by
      rw [List.take_succ, List.getElem?_eq_getElem hk']
      rfl
    refine ⟨j2, ?_, ?_, ?_⟩
    · rw [htake, joinFold_append, hfold]
      exact hjoin
    · have hone : (QueryChain.new (q0 :: rest)).stateAfter (k + 1 + 1) =
          match (QueryChain.new (q0 :: rest)).stateAfter (k + 1) with
          | .error e => .error e
          | .ok c =>
            match c.next with
            | .error e => .error e
            | .ok r => .ok r.2 := rfl
      rw [hone, hstate]
      have hnext : (QueryChain.mk (j :: rest.drop k) (k + 1)).next =
          .ok (some j2, ⟨j2 :: rest.drop (k + 1), k + 2⟩) := by
        rw [QueryChain.next, hdrop]
        simp [hjoin]
      simp [hnext]
    · unfold QueryChain.output
      rw [hstate]
      have hnext : (QueryChain.mk (j :: rest.drop k) (k + 1)).next =
          .ok (some j2, ⟨j2 :: rest.drop (k + 1), k + 2⟩) := by
        rw [QueryChain.next, hdrop]
        simp [hjoin]
      simp [hnext]

lemma stateAfter_add (c : QueryChain) (m : Nat) :
    ∀ n, c.stateAfter (m + n) =
      match c.stateAfter m with
      | .error e => .error e
      | .ok c' => c'.stateAfter n := by
  intro n
  induction n with
  | zero => cases h : c.stateAfter m <;> simp [h, QueryChain.stateAfter]
  | succ n ih =>
    cases h : c.stateAfter m with
    | error e =>
      rw [h] at ih
      show (match c.stateAfter (m + n) with
        | Except.error e => Except.error e
        | Except.ok c2 =>
          match c2.next with
          | Except.error e => Except.error e
          | Except.ok r => Except.ok r.2) = _
      rw [ih]
    | ok c' =>
      rw [h] at ih
      show (match c.stateAfter (m + n) with
        | Except.error e => Except.error e
        | Except.ok c2 =>
          match c2.next with
          | Except.error e => Except.error e
          | Except.ok r => Except.ok r.2) = _
      rw [ih]
      rfl

lemma output_add (c : QueryChain) (m n : Nat) (c' : QueryChain)
    (h : c.stateAfter m = .ok c') : c.output (m + n) = c'.output n := by
  unfold QueryChain.output
  rw [stateAfter_add c m n, h]

lemma exhausted_next (c : QueryChain) (hit : c.iteration ≠ 0)
    (hq : c.queries = [] ∨ ∃ x, c.queries = [x]) :
    c.next = .ok (none, ⟨[], c.iteration⟩) := by
  have hb : (c.iteration == 0) = false := beq_eq_false_iff_ne.2 hit
  rcases hq with hq | ⟨x, hq⟩ <;> rw [QueryChain.next, hq, hb] <;> rfl

lemma exhausted_stable (it : Nat) (hit : it ≠ 0) :
    ∀ n, (QueryChain.mk [] it).stateAfter n = .ok ⟨[], it⟩ ∧
      (QueryChain.mk [] it).output n = .ok none := by
  have hnext : (QueryChain.mk [] it).next = .ok (none, ⟨[], it⟩) :=
    exhausted_next ⟨[], it⟩ hit (Or.inl rfl)
  intro n
  induction n with
  | zero => exact ⟨rfl, by simp [QueryChain.output, QueryChain.stateAfter, hnext]⟩
  | succ n ih =>
    have hs : (QueryChain.mk [] it).stateAfter (n + 1) = .ok ⟨[], it⟩ := by
      show (match (QueryChain.mk [] it).stateAfter n with
        | Except.error e => Except.error e
        | Except.ok c2 =>
          match c2.next with
          | Except.error e => Except.error e
          | Except.ok r => Except.ok r.2) = _
      rw [ih.1]
      simp [hnext]
    exact ⟨hs, by simp [QueryChain.output, hs, hnext]⟩

lemma one_left_output (x : SolrQuery) (it : Nat) (hit : it ≠ 0) :
    ∀ m, (QueryChain.mk [x] it).output m = .ok none := by
  have hnext : (QueryChain.mk [x] it).next = .ok (none, ⟨[], it⟩) :=
    exhausted_next ⟨[x], it⟩ hit (Or.inr ⟨x, rfl⟩)
  intro m
  cases m with
  | zero => simp [QueryChain.output, QueryChain.stateAfter, hnext]
  | succ m =>
    have h1 : (QueryChain.mk [x] it).stateAfter 1 = .ok ⟨[], it⟩ := by
      show (match (QueryChain.mk [x] it).stateAfter 0 with
        | Except.error e => Except.error e
        | Except.ok c2 =>
          match c2.next with
          | Except.error e => Except.error e
          | Except.ok r => Except.ok r.2) = _
      rw [show (QueryChain.mk [x] it).stateAfter 0 = .ok ⟨[x], it⟩ from rfl]
      simp [hnext]
    rw [show m + 1 = 1 + m from Nat.add_comm m 1, output_add _ 1 m _ h1]
    exact (exhausted_stable it hit m).2

/-- C2: for a chain built from a head query and a list of further queries,
all mutually joinable, the first advance yields the head unchanged (cursor
moving 0 to 1, nothing consumed), the `k`-th post-initial advance yields
the strictly left-associative `inner_join` fold of the first `k+1` inputs,
and after the inputs are exhausted every further advance yields `none`. -/
theorem claim_chain_fold :
    ∀ (h : Option String) (p : Option Nat) (pa : String)
      (q0 : SolrQuery) (rest : List SolrQuery),
      Joinable h p pa q0 → (∀ q ∈ rest, Joinable h p pa q) →
      ((QueryChain.new (q0 :: rest)).output 0 = .ok (some q0) ∧
        (QueryChain.new (q0 :: rest)).stateAfter 1 =
          .ok ⟨q0 :: rest, 1⟩) ∧
      (∀ k, k ≤ rest.length →
        ∃ j, joinFold q0 (rest.take k) = .ok j ∧
          (QueryChain.new (q0 :: rest)).output k = .ok (some j)) ∧
      (∀ n, rest.length + 1 ≤ n →
        (QueryChain.new (q0 :: rest)).output n = .ok none) := by
  intro h p pa q0 rest h0 hrest
  refine ⟨⟨?_, ?_⟩, fun k hk => ?_, fun n hn => ?_⟩
  · rfl
  · rfl
  · obtain ⟨j, hfold, _, hout⟩ := chain_state_fold h p pa q0 rest h0 hrest k hk
    exact ⟨j, hfold, hout⟩
  · obtain ⟨m, rfl⟩ : ∃ m, n = (rest.length + 1) + m :=
      ⟨n - (rest.length + 1), by omega⟩
    obtain ⟨jF, _, hstate, _⟩ :=
      chain_state_fold h p pa q0 rest h0 hrest rest.length le_rfl
    rw [List.drop_length] at hstate
    rw [output_add _ (rest.length + 1) m _ hstate]
    exact one_left_output jF (rest.length + 1) (Nat.succ_ne_zero _) m

/-- Witness for C2 at the crate's own chain test: `[A, B, C]` with `q`
values `1:*`, `2:*`, `3:*` yields `A`, then the folds, then `none`. -/
theorem claim_chain_fold_witness :
    Joinable (some "localhost") (some 8983) "/solr/collection1/select" exQ1 ∧
    (QueryChain.new [exQ1, exQ2, exQ3]).output 0 = .ok (some exQ1) ∧
    (∃ j, joinFold exQ1 ([exQ2, exQ3].take 2) = .ok j ∧
      (QueryChain.new [exQ1, exQ2, exQ3]).output 2 = .ok (some j)) ∧
    (QueryChain.new [exQ1, exQ2, exQ3]).output 3 = .ok none := by
  have hJ : Joinable (some "localhost") (some 8983)
      "/solr/collection1/select" exQ1 := ⟨rfl, rfl, rfl, rfl⟩
  have hrest : ∀ q ∈ [exQ2, exQ3],
      Joinable (some "localhost") (some 8983) "/solr/collection1/select" q := by
    intro q hq
    simp only [List.mem_cons, List.not_mem_nil, or_false] at hq
    rcases hq with rfl | rfl <;> exact ⟨rfl, rfl, rfl, rfl⟩
  obtain ⟨⟨h1, _⟩, h2, h3⟩ :=
    claim_chain_fold (some "localhost") (some 8983)
      "/solr/collection1/select" exQ1 [exQ2, exQ3] hJ hrest
  exact ⟨hJ, h1, h2 2 (by decide), h3 3 (by decide)⟩

lemma next_ok_inv (h : Option String) (p : Option Nat) (pa : String)
    (c : QueryChain) (hc : ∀ q ∈ c.queries, Joinable h p pa q) :
    ∃ o c', c.next = .ok (o, c') ∧ ∀ q ∈ c'.queries, Joinable h p pa q := by
  by_cases hit : (c.iteration == 0) = true
  · refine ⟨c.queries.head?, { c with iteration := c.iteration + 1 }, ?_, ?_⟩
    · rw [QueryChain.next, if_pos hit]
    · simpa using hc
  · have hb : (c.iteration == 0) = false := by
      simpa using hit
    rcases hq : c.queries with _ | ⟨q1, _ | ⟨q2, rest⟩⟩
    · refine ⟨none, ⟨[], c.iteration⟩, ?_, by simp⟩
      rw [QueryChain.next, hq, hb]
      rfl
    · refine ⟨none, ⟨[], c.iteration⟩, ?_, by simp⟩
      rw [QueryChain.next, hq, hb]
      rfl
    · obtain ⟨j, hj, hJ⟩ :=
        inner_join_ok_of_joinable q1 q2 (hc q1 (by simp [hq]))
          (hc q2 (by simp [hq]))
      refine ⟨some j, ⟨j :: rest, c.iteration + 1⟩, ?_, ?_⟩
      · rw [QueryChain.next, hq, hb]
        simp [hj]
      · intro q hmem
        rcases List.mem_cons.1 hmem with rfl | hmem
        · exact hJ
        · exact hc q (by simp [hq, hmem])

lemma chain_run_ok (h : Option String) (p : Option Nat) (pa : String)
    (qs : List SolrQuery) (hqs : ∀ q ∈ qs, Joinable h p pa q) :
    ∀ n, ∃ c', (QueryChain.new qs).stateAfter n = .ok c' ∧
      ∀ q ∈ c'.queries, Joinable h p pa q := by
  intro n
  induction n with
  | zero => exact ⟨QueryChain.new qs, rfl, by simpa [QueryChain.new] using hqs⟩
  | succ n ih =>
    obtain ⟨c', hs, hinv⟩ := ih
    obtain ⟨o, c2, hnext, hinv2⟩ := next_ok_inv h p pa c' hinv
    refine ⟨c2, ?_, hinv2⟩
    show (match (QueryChain.new qs).stateAfter n with
      | Except.error e => Except.error e
      | Except.ok c3 =>
        match c3.next with
        | Except.error e => Except.error e
        | Except.ok r => Except.ok r.2) = _
    rw [hs]
    simp [hnext]

/-- C7 amended: for a chain whose elements were all obtained by successful
validated construction *and* share host, port and path, the join performed
inside an advance never fails — no advance, at any step, can surface the
unwrap-style error. -/
theorem claim_chain_join_no_error :
    ∀ (h : Option String) (p : Option Nat) (pa : String)
      (qs : List SolrQuery),
      (∀ q ∈ qs, (∃ r, SolrQuery.new r = .ok q) ∧
        q.url.host = h ∧ q.url.port = p ∧ q.url.path = pa) →
      ∀ n e, (QueryChain.new qs).output n ≠ .error e := by
  intro h p pa qs hqs n e
  have hqs' : ∀ q ∈ qs, Joinable h p pa q := by
    intro q hq
    obtain ⟨⟨r, hr⟩, hh, hp2, hpa2⟩ := hqs q hq
    exact ⟨hh, hp2, hpa2, (SolrQuery.new_ok_params r q hr).1⟩
  obtain ⟨c', hs, hinv⟩ := chain_run_ok h p pa qs hqs' n
  obtain ⟨o, c2, hnext, _⟩ := next_ok_inv h p pa c' hinv
  simp [QueryChain.output, hs, hnext]

/-- C7 counterexample: two queries that both passed validated construction
but live on different hosts make the second advance of their chain hit the
join-failure (unwrap) path, so construction-time validation alone does not
make it unreachable. -/
theorem claim_chain_unwrap_cex :
    SolrQuery.new (.ok exUrlHostA) = .ok exQHostA ∧
    SolrQuery.new (.ok exUrlHostB) = .ok exQHostB ∧
    (QueryChain.new [exQHostA, exQHostB]).output 1 =
      .error (.DifferentsHosts (some "localhost1") (some "localhost2")) :=
  ⟨rfl, rfl, rfl⟩

/-- Witness for C7's amended claim on a same-endpoint chain. -/
theorem claim_chain_join_no_error_witness :
    (QueryChain.new [exQ1, exQ2]).output 1 ≠
      .error .MissingQQueryParameter := by
  refine claim_chain_join_no_error (some "localhost") (some 8983)
    "/solr/collection1/select" [exQ1, exQ2] ?_ 1 .MissingQQueryParameter
  intro q hq
  simp only [List.mem_cons, List.not_mem_nil, or_false] at hq
  rcases hq with rfl | rfl
  · exact ⟨⟨.ok exUrl1, rfl⟩, rfl, rfl, rfl⟩
  · exact ⟨⟨.ok exUrl2, rfl⟩, rfl, rfl, rfl⟩

/-- C8: advancing a chain constructed empty always yields `none`, never an
error; and once any advance past step 0 has returned `none`, every later
advance returns `none` as well (idempotent exhaustion). -/
theorem claim_chain_exhausted :
    (∀ n, (QueryChain.new []).output n = .ok none) ∧
    (∀ (c c' : QueryChain) (o : Option SolrQuery), 1 ≤ c.iteration →
      c.next = .ok (o, c') → o = none →
      ∀ n, c'.output n = .ok none) := by
  constructor
  · intro n
    cases n with
    | zero => rfl
    | succ n =>
      have h1 : (QueryChain.new []).stateAfter 1 = .ok ⟨[], 1⟩ := rfl
      rw [show n + 1 = 1 + n from Nat.add_comm n 1,
        output_add _ 1 n _ h1]
      exact (exhausted_stable 1 one_ne_zero n).2
  · intro c c' o hit hnext ho
    subst ho
    have hitne : c.iteration ≠ 0 := by omega
    have hb : (c.iteration == 0) = false := beq_eq_false_iff_ne.2 hitne
    have hc' : c' = ⟨[], c.iteration⟩ := by
      rw [QueryChain.next, hb] at hnext
      rcases hq : c.queries with _ | ⟨q1, _ | ⟨q2, rest⟩⟩
      · rw [hq] at hnext
        simp at hnext
        exact hnext.symm
      · rw [hq] at hnext
        simp at hnext
        exact hnext.symm
      · rw [hq] at hnext
        simp only [if_neg (by simp : ¬(false = true))] at hnext
        cases hj : q1.inner_join q2 with
        | error e => rw [hj] at hnext; cases hnext
        | ok nq => rw [hj] at hnext; simp at hnext
    subst hc'
    exact fun n => (exhausted_stable c.iteration hitne n).2

/-- Witness for C8's permanence clause on a concrete exhausted chain. -/
theorem claim_chain_exhausted_witness :
    QueryChain.output ⟨[], 1⟩ 2 = .ok none :=
  claim_chain_exhausted.2 ⟨[], 1⟩ ⟨[], 1⟩ none le_rfl rfl rfl 2
